import Mathlib

/-!
Verification development for the failover core of the `claude-code-relay`
repository (package `relay`): account selectors, circuit breaker, health
tracker, capturing response sink and the fallback handler.

Modelling conventions:
* Go `int`/`int64` fields are modelled as `Int`; `uint` ids as `Nat`.
* `time.Time` instants and `time.Duration` values are modelled as `Int`
  nanoseconds (Go's `Duration` unit); `time.Now()` is threaded explicitly
  as a `now : Int` parameter.  Wall-clock duration result fields
  (`FallbackResult.Duration`) carry no logical content here and are omitted.
* `float64` arithmetic is modelled over `Rat`.  Every concrete value the
  theorems below evaluate is exactly representable in binary floating
  point, and the comparisons the code performs on them are exact, so the
  translation is faithful on those inputs.
* Go byte strings (`[]byte`, response bodies) are modelled as `String`
  (Go converts between the two without change of content).
* `sort.Slice` is Go's pdqsort, which delegates to its insertion sort for
  slices of fewer than 13 elements.  Two models are used, mirroring the two
  shapes of comparator in the source: `sortSliceBy` (comparator reads the
  elements being compared, as all selectors but one do) is insertion sort
  on elements; `posSortGo` (comparator reads a *fixed side array by index*,
  as `SmartLoadBalanceSelector.Select`'s all-overloaded branch does) is the
  literal swap loop of Go's insertion sort, which is what decides the
  behaviour of that branch.
-/

namespace Relay

/-- Nanoseconds per second, matching Go `time.Second`. -/
def second : Int := 1000000000

/-- Nanoseconds per minute, matching Go `time.Minute`. -/
def minute : Int := 60 * second

/-- `model.Account`: the fields the failover core reads.  Go types:
`ID uint`, `Priority int`, `Weight int`, `TodayUsageCount int`,
`CurrentStatus int` (1 normal, 2 error, 3 throttled). -/
structure Account where
  id : Nat
  priority : Int := 0
  weight : Int := 0
  todayUsageCount : Int := 0
  currentStatus : Int := 1
  deriving Repr, DecidableEq

/-- Element-comparator `sort.Slice`: Go's insertion sort reads the elements
currently at the compared positions, which for an element-wise comparator
coincides with `List.insertionSort` over the comparator. -/
def sortSliceBy (less : α → α → Bool) (l : List α) : List α :=
  List.insertionSort (fun a b => less a b = true) l

/-- Swap the elements at positions `k` and `k+1` (identity out of range),
the `data.Swap(j, j-1)` step of Go's insertion sort. -/
def adjSwap : List α → Nat → List α
  | x :: y :: rest, 0 => y :: x :: rest
  | x :: rest, Nat.succ n => x :: adjSwap rest n
  | l, _ => l

/-- Inner loop of Go's insertion sort with an index-based comparator that
reads a fixed side table: `for j := i; j > 0 && less(j, j-1); j-- { swap }`. -/
def posInner (less : Nat → Nat → Bool) : List α → Nat → List α
  | l, 0 => l
  | l, Nat.succ j => if less (j + 1) j then posInner less (adjSwap l j) j else l

/-- Go's insertion sort (the `sort.Slice` algorithm for slices shorter than
13) with an index-based comparator: the comparator's answers never change as
elements move, exactly as in `SmartLoadBalanceSelector.Select` where the
comparator consults the parallel `loads` slice by position. -/
def posSortGo (less : Nat → Nat → Bool) (l : List α) : List α :=
  (List.range l.length).foldl (fun acc i => posInner less acc i) l

/-! ## Account selectors (`account_selector.go`) -/

/-- `PrioritySelector.Select`: ascending priority, ties by ascending
today's usage count. -/
def prioritySelect (accounts : List Account) : List Account :=
  sortSliceBy
    (fun a b =>
      if a.priority != b.priority then a.priority < b.priority
      else a.todayUsageCount < b.todayUsageCount)
    accounts

/-- `calculateActualWeight`: `weight/totalWeight` scaled by a usage factor
clamped below at 0.1. -/
def calculateActualWeight (account : Account) (totalWeight : Int) : Rat :=
  if totalWeight = 0 then 0
  else
    let baseWeight : Rat := (account.weight : Rat) / (totalWeight : Rat)
    let usageFactor : Rat := 1 - (account.todayUsageCount : Rat) / 1000
    let usageFactor := if usageFactor < 1/10 then 1/10 else usageFactor
    baseWeight * usageFactor

/-- `WeightedSelector.Select`: descending effective weight. -/
def weightedSelect (accounts : List Account) : List Account :=
  let totalWeight := accounts.foldl (fun acc a => acc + a.weight) 0
  sortSliceBy
    (fun a b => calculateActualWeight b totalWeight < calculateActualWeight a totalWeight)
    accounts

/-- `RoundRobinSelector` state: `lastSelected` map and round counter. -/
structure RoundRobinState where
  lastSelected : List (Nat × Int) := []
  counter : Int := 0
  deriving Repr, DecidableEq

/-- Go map lookup with zero value for a missing key (`s.lastSelected[id]`). -/
def rrLookup (m : List (Nat × Int)) (id : Nat) : Int :=
  match m.find? (fun p => p.1 = id) with
  | some p => p.2
  | none => 0

/-- Go map store `m[id] = v` (replace or insert). -/
def rrStore (m : List (Nat × Int)) (id : Nat) (v : Int) : List (Nat × Int) :=
  if (m.find? (fun p => p.1 = id)).isSome then
    m.map (fun p => if p.1 = id then (p.1, v) else p)
  else m ++ [(id, v)]

/-- `RoundRobinSelector.Select`: score each account by
`counter - lastSelected[id]`, sort descending, stamp every account with the
current counter, increment the counter. -/
def roundRobinSelect (s : RoundRobinState) (accounts : List Account) :
    List Account × RoundRobinState :=
  let infos := accounts.map (fun a => (a, s.counter - rrLookup s.lastSelected a.id))
  let sorted := sortSliceBy (fun x y => y.2 < x.2) infos
  let result := sorted.map (fun x => x.1)
  let lastSelected := result.foldl (fun m a => rrStore m a.id s.counter) s.lastSelected
  (result, { lastSelected := lastSelected, counter := s.counter + 1 })

/-- `LeastUsedSelector.Select`: ascending usage, ties by ascending priority. -/
def leastUsedSelect (accounts : List Account) : List Account :=
  sortSliceBy
    (fun a b =>
      if a.todayUsageCount != b.todayUsageCount then a.todayUsageCount < b.todayUsageCount
      else a.priority < b.priority)
    accounts

/-- `calculateAccountScore`: `0.4·weight + usageScore + statusScore`, with
`usageScore = 30` when unused, else `30·(1 − usage/1000)` clamped at 0, and
`statusScore` 30/10/0 for status 1/3/2. -/
def calculateAccountScore (account : Account) : Rat :=
  let score : Rat := (account.weight : Rat) * (4/10)
  let usageScore : Rat :=
    if account.todayUsageCount > 0 then
      let u : Rat := 30 * (1 - (account.todayUsageCount : Rat) / 1000)
      if u < 0 then 0 else u
    else 30
  let statusScore : Rat :=
    if account.currentStatus = 1 then 30
    else if account.currentStatus = 3 then 10
    else 0
  score + usageScore + statusScore

/-- `HybridSelector.Select`: bucket by priority, sort each bucket by
descending composite score, and emit the buckets for priorities 1..100 in
ascending order.  Accounts whose priority lies outside 1..100 land in a
bucket the emission loop never visits and are dropped. -/
def hybridSelect (accounts : List Account) : List Account :=
  (List.range' 1 100).flatMap (fun p =>
    sortSliceBy (fun a b => calculateAccountScore b < calculateAccountScore a)
      (accounts.filter (fun a => a.priority = (p : Int))))

/-- `PerformanceData` tracked by the adaptive selector. -/
structure PerformanceData where
  successRate : Rat := 0
  avgResponseTime : Int := 0
  lastSuccess : Int := 0
  lastFailure : Int := 0
  totalRequests : Int := 0
  totalSuccesses : Int := 0
  deriving Repr, DecidableEq

/-- Performance map keyed by account id (`nil` pointer ≙ missing key). -/
def perfLookup (m : List (Nat × PerformanceData)) (id : Nat) : Option PerformanceData :=
  (m.find? (fun p => p.1 = id)).map (fun p => p.2)

/-- The comparator of `AdaptiveSelector.adjustByPerformance`: entries
without data sort last, then descending success rate, then ascending
average response time. -/
def perfLess (m : List (Nat × PerformanceData)) (a b : Account) : Bool :=
  match perfLookup m a.id, perfLookup m b.id with
  | none, none => false
  | none, some _ => false
  | some _, none => true
  | some pa, some pb =>
      if pa.successRate != pb.successRate then pb.successRate < pa.successRate
      else pa.avgResponseTime < pb.avgResponseTime

/-- The post-pass of `AdaptiveSelector.Select`: re-sort by performance when
any performance data exists. -/
def adaptivePost (m : List (Nat × PerformanceData)) (accounts : List Account) :
    List Account :=
  if m.isEmpty then accounts else sortSliceBy (perfLess m) accounts

/-- `SmartLoadBalanceSelector.calculateLoadScore`:
`usageLoad + statusLoad + weightLoad` with `usageLoad = min(50, usage/1000·50)`
(clamped above only), `statusLoad` 0/20/30 for status 1/3/2, and
`weightLoad = min(20, (100/weight)·20)` for positive weight. -/
def calculateLoadScore (account : Account) : Rat :=
  let usageLoad : Rat := (account.todayUsageCount : Rat) / 1000 * 50
  let usageLoad := if usageLoad > 50 then 50 else usageLoad
  let statusLoad : Rat :=
    if account.currentStatus = 1 then 0
    else if account.currentStatus = 3 then 20
    else if account.currentStatus = 2 then 30
    else 0
  let weightLoad : Rat :=
    if account.weight > 0 then
      let w : Rat := 100 / (account.weight : Rat) * 20
      if w > 20 then 20 else w
    else 0
  usageLoad + statusLoad + weightLoad

/-- The overload test `loadScore > s.loadThreshold` of
`SmartLoadBalanceSelector.Select`. -/
def smartOverloaded (loadThreshold : Rat) (a : Account) : Bool :=
  calculateLoadScore a > loadThreshold

/-- `SmartLoadBalanceSelector.Select`, parameterised by the wrapped adaptive
selector's base ordering (`base`) and performance map.  The all-overloaded
branch sorts a copy of the input with `sort.Slice` whose comparator reads
the load scores of the *original positions* in the parallel `loads` slice,
modelled by `posSortGo` over the input's score table. -/
def smartSelect (base : List Account → List Account)
    (loadThreshold : Rat) (perf : List (Nat × PerformanceData))
    (accounts : List Account) : List Account :=
  let available := accounts.filter (fun a => !smartOverloaded loadThreshold a)
  if available.isEmpty then
    let scores := accounts.map calculateLoadScore
    posSortGo (fun i j => decide (scores.getD i 0 < scores.getD j 0)) accounts
  else
    adaptivePost perf (base available)

/-! ## Circuit breaker (`circuit_breaker.go`) -/

/-- `CircuitBreakerState`: 0 closed, 1 open, 2 half-open. -/
inductive CBMode where
  | circuitClosed
  | circuitOpen
  | circuitHalfOpen
  deriving Repr, DecidableEq

/-- Wrap an `int64` value into its two's-complement range, for the
`failureCount++` / `consecutiveSuccess++` updates. -/
def wrap64 (x : Int) : Int := (x + 2 ^ 63) % 2 ^ 64 - 2 ^ 63

/-- `CircuitBreaker`: mutable fields plus configuration. -/
structure CBState where
  mode : CBMode := .circuitClosed
  failureCount : Int := 0
  lastFailureTime : Int := 0
  consecutiveSuccess : Int := 0
  threshold : Int
  failureWindow : Int
  recoveryWindow : Int
  deriving Repr, DecidableEq

/-- `NewCircuitBreaker`. -/
def newCircuitBreaker (threshold failureWindow recoveryWindow : Int) : CBState :=
  { threshold := threshold, failureWindow := failureWindow,
    recoveryWindow := recoveryWindow }

/-- `CircuitBreaker.IsOpen`: returns whether the breaker rejects, and the
(possibly) updated state — open flips to half-open once the recovery window
has elapsed since the last failure. -/
def cbIsOpen (now : Int) (cb : CBState) : Bool × CBState :=
  match cb.mode with
  | .circuitClosed => (false, cb)
  | .circuitOpen =>
      if now - cb.lastFailureTime > cb.recoveryWindow then
        (false, { cb with mode := .circuitHalfOpen, consecutiveSuccess := 0 })
      else (true, cb)
  | .circuitHalfOpen => (false, cb)

/-- `CircuitBreaker.RecordSuccess`. -/
def cbRecordSuccess (now : Int) (cb : CBState) : CBState :=
  match cb.mode with
  | .circuitHalfOpen =>
      let cs := wrap64 (cb.consecutiveSuccess + 1)
      if cs ≥ 5 then
        { cb with consecutiveSuccess := cs, mode := .circuitClosed, failureCount := 0 }
      else { cb with consecutiveSuccess := cs }
  | .circuitClosed =>
      if now - cb.lastFailureTime > cb.failureWindow then { cb with failureCount := 0 }
      else cb
  | .circuitOpen => cb

/-- `CircuitBreaker.RecordFailure`. -/
def cbRecordFailure (now : Int) (cb : CBState) : CBState :=
  let cb := { cb with failureCount := wrap64 (cb.failureCount + 1), lastFailureTime := now }
  match cb.mode with
  | .circuitHalfOpen => { cb with mode := .circuitOpen }
  | .circuitClosed =>
      if cb.failureCount ≥ cb.threshold then { cb with mode := .circuitOpen } else cb
  | .circuitOpen => cb

/-- One call against the breaker, with its `time.Now()` value. -/
inductive CBEvent where
  | isOpen (now : Int)
  | recordSuccess (now : Int)
  | recordFailure (now : Int)
  deriving Repr, DecidableEq

/-- Apply one breaker call. -/
def cbStep (e : CBEvent) (cb : CBState) : CBState :=
  match e with
  | .isOpen now => (cbIsOpen now cb).2
  | .recordSuccess now => cbRecordSuccess now cb
  | .recordFailure now => cbRecordFailure now cb

/-- Run a sequence of breaker calls from a given state. -/
def cbRun (cb : CBState) (events : List CBEvent) : CBState :=
  events.foldl (fun s e => cbStep e s) cb

/-- The transition edges the specification allows (plus staying put). -/
def cbTransitionAllowed (s s' : CBMode) : Prop :=
  s = s' ∨
    (s = .circuitClosed ∧ s' = .circuitOpen) ∨
    (s = .circuitOpen ∧ s' = .circuitHalfOpen) ∨
    (s = .circuitHalfOpen ∧ s' = .circuitClosed) ∨
    (s = .circuitHalfOpen ∧ s' = .circuitOpen)

instance (s s' : CBMode) : Decidable (cbTransitionAllowed s s') := by
  unfold cbTransitionAllowed; infer_instance

/-! ## Health monitor (`circuit_breaker.go`, health part) -/

/-- `AccountHealth`. -/
structure AccountHealth where
  accountID : Nat
  status : String := "healthy"
  lastCheckTime : Int := 0
  successCount : Int := 0
  failureCount : Int := 0
  avgResponseTime : Int := 0
  errorRate : Rat := 0
  lastFailure : Int := 0
  lastSuccess : Int := 0
  disabledUntil : Option Int := none
  failureReason : String := ""
  deriving Repr, DecidableEq

/-- `HealthMonitor.determineHealthStatus`: first match wins.  Note the
source tests `avgResponseTime > 30 s ⇒ "degraded"` *before*
`avgResponseTime > 1 min ⇒ "unhealthy"`, making the latter branch
unreachable. -/
def disabledActive (disabledUntil : Option Int) (now : Int) : Bool :=
  match disabledUntil with
  | some t => now < t
  | none => false

def determineHealthStatus (now : Int) (h : AccountHealth) : String :=
  if disabledActive h.disabledUntil now then "disabled"
  else if h.lastCheckTime - h.lastSuccess > 5 * minute ∧
          h.lastCheckTime - h.lastFailure > 5 * minute then "idle"
  else if h.errorRate > 1/2 then "unhealthy"
  else if h.errorRate > 1/5 then "degraded"
  else if h.avgResponseTime > 30 * second then "degraded"
  else if h.avgResponseTime > minute then "unhealthy"
  else "healthy"

/-- `HealthMonitor.shouldTemporarilyDisable`: when the error rate exceeds
0.8 it counts at most one recent failure (`recentFailures ∈ {0,1}`) and then
requires `recentFailures >= 3`. -/
def shouldTemporarilyDisable (now : Int) (h : AccountHealth) : Bool :=
  if h.errorRate > 8/10 then
    let recentFailures : Int := 0
    let cutoff := now - 5 * minute
    let recentFailures := if h.lastFailure > cutoff then recentFailures + 1 else recentFailures
    recentFailures ≥ 3
  else false

/-! ## Capturing sink (`fallback.go`, `StreamingResponseCapture`) -/

/-- Character-list prefix test. -/
def listPrefixB : List Char → List Char → Bool
  | [], _ => true
  | _ :: _, [] => false
  | x :: xs, y :: ys => x = y && listPrefixB xs ys

/-- Character-list substring test. -/
def listContainsB (sub : List Char) : List Char → Bool
  | [] => listPrefixB sub []
  | y :: ys => listPrefixB sub (y :: ys) || listContainsB sub ys

/-- Go `strings.Contains` (the patterns matched here are ASCII, so the
byte-level and character-level readings agree). -/
def goContains (s sub : String) : Bool := listContainsB sub.data s.data

/-- An `http.Header` map: key → values, insertion ordered. -/
abbrev HeaderMap := List (String × List String)

/-- `Header.Get`: first value for the key, or `""`. -/
def headerGet (m : HeaderMap) (name : String) : String :=
  match m.find? (fun p => p.1 = name) with
  | some (_, v :: _) => v
  | _ => ""

/-- `Header.Set`: replace the key's values with the single given value. -/
def headerStore (m : HeaderMap) (name value : String) : HeaderMap :=
  if (m.find? (fun p => p.1 = name)).isSome then
    m.map (fun p => if p.1 = name then (p.1, [value]) else p)
  else m ++ [(name, [value])]

/-- `Header.Add`: append a value to the key. -/
def headerAdd (m : HeaderMap) (name value : String) : HeaderMap :=
  if (m.find? (fun p => p.1 = name)).isSome then
    m.map (fun p => if p.1 = name then (p.1, p.2 ++ [value]) else p)
  else m ++ [(name, [value])]

/-- The real client sink (`gin.ResponseWriter`): the shared header map, the
status lines, body chunks and flushes it has received. -/
structure ClientSink where
  headers : HeaderMap := []
  statusWrites : List Int := []
  chunks : List String := []
  flushCount : Nat := 0
  deriving DecidableEq

/-- Underlying `WriteHeader`. -/
def clientWriteHeader (code : Int) (cl : ClientSink) : ClientSink :=
  { cl with statusWrites := cl.statusWrites ++ [code] }

/-- Underlying `Write`. -/
def clientWrite (data : String) (cl : ClientSink) : ClientSink :=
  { cl with chunks := cl.chunks ++ [data] }

/-- Underlying `Flush`. -/
def clientFlush (cl : ClientSink) : ClientSink :=
  { cl with flushCount := cl.flushCount + 1 }

/-- `StreamingResponseCapture` mutable state (`NewStreamingResponseCapture`
defaults).  `firstByteTime` is represented by the `hasReceivedData` flag. -/
structure CaptureState where
  statusCode : Int := 200
  isSuccess : Bool := false
  buffer : String := ""
  headerSet : Bool := false
  headersCopied : Bool := false
  hasReceivedData : Bool := false
  isStreamMode : Bool := false
  totalDataSize : Int := 0
  upstreamHeaders : HeaderMap := []
  deriving DecidableEq

/-- `isFallbackStreamResponse`: Content-Type substring classification. -/
def isFallbackStreamResponse (m : HeaderMap) : Bool :=
  let contentType := headerGet m "Content-Type"
  goContains contentType "text/event-stream" ||
    goContains contentType "text/plain" ||
    goContains contentType "application/x-ndjson"

/-- `StreamingResponseCapture.CacheUpstreamHeaders`: snapshot the shared
header map when in the non-streaming mode. -/
def cacheUpstreamHeaders (st : CaptureState) (cl : ClientSink) : CaptureState :=
  if !st.isStreamMode then { st with upstreamHeaders := cl.headers } else st

/-- `StreamingResponseCapture.WriteHeader`. -/
def captureWriteHeader (code : Int) (st : CaptureState) (cl : ClientSink) :
    CaptureState × ClientSink :=
  let st := { st with statusCode := code, isSuccess := 200 ≤ code && code < 400 }
  let st :=
    if !st.headersCopied then
      { st with isStreamMode := isFallbackStreamResponse cl.headers, headersCopied := true }
    else st
  if st.isStreamMode then
    if st.isSuccess && !st.headerSet then
      ({ st with headerSet := true }, clientWriteHeader code cl)
    else (st, cl)
  else (cacheUpstreamHeaders st cl, cl)

/-- `StreamingResponseCapture.Write`. -/
def captureWrite (data : String) (st : CaptureState) (cl : ClientSink) :
    CaptureState × ClientSink :=
  if data = "" then (st, cl)
  else
    let st :=
      if !st.headersCopied then
        { st with isStreamMode := isFallbackStreamResponse cl.headers, headersCopied := true }
      else st
    let st := if !st.hasReceivedData then { st with hasReceivedData := true } else st
    let st := { st with totalDataSize := st.totalDataSize + data.length }
    if st.isStreamMode then
      if st.isSuccess && st.headerSet then
        (st, clientFlush (clientWrite data cl))
      else if st.isSuccess && !st.headerSet then
        ({ st with headerSet := true },
          clientFlush (clientWrite data (clientWriteHeader st.statusCode cl)))
      else ({ st with buffer := st.buffer ++ data }, cl)
    else ({ st with buffer := st.buffer ++ data }, cl)

/-- `StreamingResponseCapture.FlushNonStreamResponse`: replay the snapshot
headers except `Content-Length`/`Content-Type`, force
`Content-Type: application/json`, emit the status line if needed, then the
buffered body. -/
def flushNonStreamResponse (st : CaptureState) (cl : ClientSink) :
    CaptureState × ClientSink :=
  if !st.isStreamMode && st.isSuccess then
    let replay : HeaderMap → String × List String → HeaderMap := fun m p =>
      let lowerName := p.1.toLower
      if lowerName ≠ "content-length" && lowerName ≠ "content-type" then
        p.2.foldl (fun m v => headerAdd m p.1 v) m
      else m
    let cl := { cl with headers := st.upstreamHeaders.foldl replay cl.headers }
    let cl := { cl with headers := headerStore cl.headers "Content-Type" "application/json" }
    let (st, cl) :=
      if !st.headerSet then ({ st with headerSet := true }, clientWriteHeader st.statusCode cl)
      else (st, cl)
    (st, clientWrite st.buffer cl)
  else (st, cl)

/-- One action the attempt executor performs against its supplied sink:
mutate the (shared) header map, write the status line, or write body bytes. -/
inductive SinkEvent where
  | setHeader (name value : String)
  | writeHeader (code : Int)
  | write (data : String)
  deriving Repr, DecidableEq

/-- Run one executor action against the capturing sink. -/
def captureStep (st : CaptureState) (cl : ClientSink) : SinkEvent → CaptureState × ClientSink
  | .setHeader name value => (st, { cl with headers := headerStore cl.headers name value })
  | .writeHeader code => captureWriteHeader code st cl
  | .write data => captureWrite data st cl

/-- Run an executor script against the capturing sink. -/
def runCapture (events : List SinkEvent) (st : CaptureState) (cl : ClientSink) :
    CaptureState × ClientSink :=
  events.foldl (fun p e => captureStep p.1 p.2 e) (st, cl)

/-! ## Fallback handler (`fallback.go`) -/

/-- `FallbackConfig` (durations in nanoseconds). -/
structure FallbackConfig where
  maxRetries : Int := 3
  retryDelay : Int := 0
  strategy : String := "priority_first"
  enableCircuitBreaker : Bool := true
  circuitBreakerThreshold : Int := 5
  failureWindow : Int := 5 * minute
  recoveryWindow : Int := 10 * minute
  enableHealthCheck : Bool := true
  healthCheckInterval : Int := 2 * minute
  deriving Repr, DecidableEq

/-- `FallbackResult` (the `Duration` field carries no logical content under
the constant-clock model and is fixed to 0; `UsageTokens` is never set by
the core and is omitted). -/
structure FallbackResult where
  success : Bool := false
  account : Option Account := none
  statusCode : Int := 0
  errorMessage : String := ""
  attemptCount : Int := 0
  duration : Int := 0
  strategyUsed : String := ""
  failureReason : String := ""
  deriving Repr, DecidableEq

/-- Health map keyed by account id (`hm.accountHealth`). -/
abbrev HealthMap := List (Nat × AccountHealth)

/-- Map lookup (`nil` for missing). -/
def healthLookup (m : HealthMap) (id : Nat) : Option AccountHealth :=
  (m.find? (fun p => p.1 = id)).map (fun p => p.2)

/-- Map store (replace or insert). -/
def healthStore (m : HealthMap) (id : Nat) (h : AccountHealth) : HealthMap :=
  if (m.find? (fun p => p.1 = id)).isSome then
    m.map (fun p => if p.1 = id then (p.1, h) else p)
  else m ++ [(id, h)]

/-- `HealthMonitor.UpdateHealthStatus`: create the entry if absent, record
the outcome, possibly set the temporary-disable window, update the average
response time EMA, recompute the error rate.  Note
`shouldTemporarilyDisable` is consulted *after* `lastFailure` is refreshed
but *before* `errorRate` is recomputed. -/
def updateHealthStatus (now : Int) (accountID : Nat) (result : FallbackResult)
    (m : HealthMap) : HealthMap :=
  let h :=
    match healthLookup m accountID with
    | some h => h
    | none => { accountID := accountID, status := "healthy", lastCheckTime := now }
  let h :=
    if result.success then
      { h with successCount := wrap64 (h.successCount + 1), lastSuccess := now }
    else
      let h := { h with failureCount := wrap64 (h.failureCount + 1), lastFailure := now,
                        failureReason := result.errorMessage }
      if shouldTemporarilyDisable now h then
        { h with disabledUntil := some (now + 10 * minute) }
      else h
  let h :=
    if h.avgResponseTime = 0 then { h with avgResponseTime := result.duration }
    else { h with avgResponseTime := (h.avgResponseTime + result.duration) / 2 }
  let total : Int := h.successCount + h.failureCount
  let h :=
    if total > 0 then { h with errorRate := (h.failureCount : Rat) / (total : Rat) }
    else h
  healthStore m accountID h

/-- Request-history map (`h.requestHistory`). -/
abbrev HistoryMap := List (Nat × List Int)

def historyLookup (m : HistoryMap) (id : Nat) : List Int :=
  match m.find? (fun p => p.1 = id) with
  | some p => p.2
  | none => []

def historyStore (m : HistoryMap) (id : Nat) (ts : List Int) : HistoryMap :=
  if (m.find? (fun p => p.1 = id)).isSome then
    m.map (fun p => if p.1 = id then (p.1, ts) else p)
  else m ++ [(id, ts)]

/-- `FallbackHandler.recordRequest`: append the timestamp, cap the account's
list at the most recent 100, then trim every account's entries to the last
10 minutes, deleting emptied accounts. -/
def recordRequest (now : Int) (accountID : Nat) (m : HistoryMap) : HistoryMap :=
  let times := historyLookup m accountID ++ [now]
  let times := if times.length > 100 then times.drop (times.length - 100) else times
  let m := historyStore m accountID times
  let cutoff := now - 10 * minute
  (m.map (fun p => (p.1, p.2.filter (fun t => t > cutoff)))).filter
    (fun p => !p.2.isEmpty)

/-- Per-group handler mutable state plus its configuration. -/
structure HandlerState where
  config : FallbackConfig
  health : HealthMap := []
  breaker : CBState
  history : HistoryMap := []

/-- `FallbackHandler.executeSingleRequest`: run the executor script through
a fresh capturing sink, record request history separately (see
`executeFallbackLoop`), build the result, and for a successful
non-streaming attempt flush the buffered body to the client. -/
def executeSingleRequest (account : Account) (events : List SinkEvent)
    (cl : ClientSink) : FallbackResult × ClientSink :=
  let out := runCapture events {} cl
  let st := out.1
  let cl := out.2
  let result : FallbackResult :=
    { account := some account, statusCode := st.statusCode, attemptCount := 1,
      success := st.isSuccess,
      errorMessage := if st.isSuccess then "" else st.buffer }
  let cl := if st.isSuccess && !st.isStreamMode then (flushNonStreamResponse st cl).2 else cl
  (result, cl)

/-- The health-based skip test at the top of each attempt: skip when an
entry exists and its status is "unhealthy" or its disable window is still
in the future. -/
def skipUnhealthy (cfg : FallbackConfig) (now : Int) (health : HealthMap)
    (acct : Account) : Bool :=
  cfg.enableHealthCheck &&
    match healthLookup health acct.id with
    | some h => h.status == "unhealthy" || disabledActive h.disabledUntil now
    | none => false

/-- The attempt loop of `FallbackHandler.executeFallback`.  Returns the
result, the updated handler state, the client sink, and the ids of the
accounts actually attempted (instrumentation; the Go code has no such
value, it is recorded here to state claims about which accounts were
tried). -/
def executeFallbackLoop (now : Int) (cfg : FallbackConfig)
    (executor : Account → List SinkEvent) (maxAttempts : Int) :
    List Account → HandlerState → ClientSink → String → Option FallbackResult →
    List Nat → FallbackResult × HandlerState × ClientSink × List Nat
  | [], hs, cl, lastError, lastResult, attempted =>
    (match lastResult with
     | some r => { r with failureReason := "all_accounts_failed" }
     | none =>
        { success := false, errorMessage := lastError, attemptCount := maxAttempts,
          failureReason := "all_accounts_failed" },
     hs, cl, attempted)
  | acct :: rest, hs, cl, lastError, lastResult, attempted =>
    if skipUnhealthy cfg now hs.health acct then
      executeFallbackLoop now cfg executor maxAttempts rest hs cl lastError lastResult
        attempted
    else
      let res := (executeSingleRequest acct (executor acct) cl).1
      let cl' := (executeSingleRequest acct (executor acct) cl).2
      let hs' := { hs with history := recordRequest now acct.id hs.history }
      if res.success then (res, hs', cl', attempted ++ [acct.id])
      else
        executeFallbackLoop now cfg executor maxAttempts rest hs' cl' res.errorMessage
          (some res) (attempted ++ [acct.id])

/-- `FallbackHandler.executeFallback`: cap the attempts at
`min(maxRetries, len(accounts))` and run the loop. -/
def executeFallback (now : Int) (executor : Account → List SinkEvent)
    (accounts : List Account) (hs : HandlerState) (cl : ClientSink) :
    FallbackResult × HandlerState × ClientSink × List Nat :=
  let maxAttempts := min hs.config.maxRetries (accounts.length : Int)
  executeFallbackLoop now hs.config executor maxAttempts
    (accounts.take maxAttempts.toNat) hs cl "" none []

/-- The body of `HandleRequestWithFallback` after the breaker check:
selector ordering, the attempt loop, and the post-loop breaker and health
bookkeeping. -/
def handleAfterBreaker (selectorFn : List Account → List Account) (now : Int)
    (accounts : List Account) (executor : Account → List SinkEvent)
    (hs : HandlerState) (cl : ClientSink) :
    FallbackResult × HandlerState × ClientSink × List Nat :=
  let sorted := selectorFn accounts
  if sorted.isEmpty then
    ({ success := false, errorMessage := "没有可用的账号",
       failureReason := "no_available_accounts" }, hs, cl, [])
  else
    let out := executeFallback now executor sorted hs cl
    let result := { out.1 with strategyUsed := hs.config.strategy }
    let hs := out.2.1
    let cl := out.2.2.1
    let attempted := out.2.2.2
    let hs :=
      if hs.config.enableCircuitBreaker then
        { hs with breaker :=
            if result.success then cbRecordSuccess now hs.breaker
            else cbRecordFailure now hs.breaker }
      else hs
    let hs :=
      match (if hs.config.enableHealthCheck then result.account else none) with
      | some a => { hs with health := updateHealthStatus now a.id result hs.health }
      | none => hs
    (result, hs, cl, attempted)

/-- `FallbackHandler.HandleRequestWithFallback`.  The selector is the
function `createAccountSelector(config.Strategy)` installed at handler
construction; it is passed as `selectorFn`. -/
def handleRequestWithFallback (selectorFn : List Account → List Account)
    (now : Int) (accounts : List Account)
    (executor : Account → List SinkEvent) (hs : HandlerState) (cl : ClientSink) :
    FallbackResult × HandlerState × ClientSink × List Nat :=
  if hs.config.enableCircuitBreaker then
    let opn := (cbIsOpen now hs.breaker).1
    let hs := { hs with breaker := (cbIsOpen now hs.breaker).2 }
    if opn then
      ({ success := false, errorMessage := "熔断器已开启，暂时停止请求",
         failureReason := "circuit_breaker_open" }, hs, cl, [])
    else handleAfterBreaker selectorFn now accounts executor hs cl
  else handleAfterBreaker selectorFn now accounts executor hs cl

/-! ## Attempt scripts and concrete fixtures

An `AttemptScript` is the canonical behaviour of one executor attempt
following the HTTP discipline: optional header mutations, then exactly one
status-line write, then body writes.  Concrete accounts, configurations and
scripts below instantiate the scenarios of the theorems. -/

/-- Concatenation of a list of byte strings. -/
def strConcat : List String → String
  | [] => ""
  | s :: rest => s ++ strConcat rest

/-- A canonical executor attempt: set headers, write the status, write the
body chunks. -/
structure AttemptScript where
  headers : List (String × String) := []
  status : Int
  writes : List String := []

/-- The sink events the attempt performs, in order. -/
def AttemptScript.events (s : AttemptScript) : List SinkEvent :=
  s.headers.map (fun p => SinkEvent.setHeader p.1 p.2) ++
    [SinkEvent.writeHeader s.status] ++ s.writes.map SinkEvent.write

/-- The success predicate of `WriteHeader`: `200 <= code < 400`. -/
def isSuccessCode (code : Int) : Prop := 200 ≤ code ∧ code < 400

instance (code : Int) : Decidable (isSuccessCode code) := by
  unfold isSuccessCode; infer_instance

/-- Throttled account: load score 20. -/
def loadA : Account := { id := 1, currentStatus := 3 }

/-- Erroring account: load score 30. -/
def loadB : Account := { id := 2, currentStatus := 2 }

/-- Normal weighted account: load score 10. -/
def loadC : Account := { id := 3, currentStatus := 1, weight := 200 }

/-- An account whose priority 0 falls outside the Hybrid emission range. -/
def accP0 : Account := { id := 7, priority := 0 }

/-- Two-account hybrid fixture with in-range priorities. -/
def hybridFixture : List Account :=
  [{ id := 11, priority := 2 }, { id := 12, priority := 1 }]

/-- Fallback scenario accounts: A preferred over B. -/
def acctA : Account := { id := 1, priority := 1 }

def acctB : Account := { id := 2, priority := 2 }

/-- A failing upstream reply: 500 with an error body. -/
def failEvents : List SinkEvent := [.writeHeader 500, .write "limit"]

/-- A successful upstream reply: 200 with body "ok". -/
def okEvents : List SinkEvent := [.writeHeader 200, .write "ok"]

/-- Executor under which every account fails. -/
def execAllFail : Account → List SinkEvent := fun _ => failEvents

/-- Executor under which account 1 fails and every other account succeeds. -/
def execAB : Account → List SinkEvent := fun a => if a.id = 1 then failEvents else okEvents

/-- Executor behaviour given a script for account 1 and one for the rest. -/
def execScripts (tA tB : AttemptScript) : Account → List SinkEvent :=
  fun a => if a.id = 1 then tA.events else tB.events

/-- Config with breaker and health checking off. -/
def cfgPlain : FallbackConfig := { enableCircuitBreaker := false, enableHealthCheck := false }

/-- Config with health checking on and the breaker off. -/
def cfgHealth : FallbackConfig := { enableCircuitBreaker := false, enableHealthCheck := true }

def cbDefault : CBState := newCircuitBreaker 5 (5 * minute) (10 * minute)

/-- A breaker currently in its open state. -/
def cbOpenState : CBState :=
  { mode := .circuitOpen, lastFailureTime := 0, threshold := 5,
    failureWindow := 5 * minute, recoveryWindow := 10 * minute }

def hsPlain : HandlerState := { config := cfgPlain, breaker := cbDefault }

def hsHealth : HandlerState := { config := cfgHealth, breaker := cbDefault }

/-- Handler whose (enabled) breaker is open. -/
def hsOpen : HandlerState :=
  { config := { enableHealthCheck := false }, breaker := cbOpenState }

/-- Health entry: recent success, error rate 0, average response time 2 min. -/
def healthSlow : AccountHealth :=
  { accountID := 1, lastCheckTime := 10 * minute, lastSuccess := 9 * minute,
    lastFailure := 0, errorRate := 0, avgResponseTime := 2 * minute }

/-- Health entry: recent success, error rate 0, average response time 45 s. -/
def healthMid : AccountHealth :=
  { accountID := 1, lastCheckTime := 10 * minute, lastSuccess := 9 * minute,
    lastFailure := 0, errorRate := 0, avgResponseTime := 45 * second }

/-- Health entry with error rate 0.9 and a failure one minute ago. -/
def healthHot : AccountHealth :=
  { accountID := 1, successCount := 1, failureCount := 9, errorRate := 9/10,
    lastFailure := -minute, lastSuccess := -(2 * minute) }

def healthHotMap : HealthMap := [(1, healthHot)]

/-- A failed result as fed back into the health tracker. -/
def failResult : FallbackResult := { success := false, errorMessage := "upstream error" }

/-- Failing attempt script: 429 with body "limit". -/
def scriptFail : AttemptScript :=
  { headers := [("Content-Type", "application/json")], status := 429, writes := ["limit"] }

/-- Successful streaming attempt script: 200 with chunks "o", "k". -/
def scriptOk : AttemptScript :=
  { headers := [("Content-Type", "text/event-stream")], status := 200, writes := ["o", "k"] }

/-! ## Helper lemmas -/

theorem sortSliceBy_perm (less : α → α → Bool) (l : List α) :
    (sortSliceBy less l).Perm l :=
  List.perm_insertionSort _ l

theorem adjSwap_perm (l : List α) (k : Nat) : (adjSwap l k).Perm l := by
  induction l generalizing k with
  | nil => simp [adjSwap]
  | cons x rest ih =>
    cases k with
    | zero =>
      cases rest with
      | nil => simp [adjSwap]
      | cons y ys => simpa [adjSwap] using List.Perm.swap x y ys
    | succ n =>
      cases rest with
      | nil => simp [adjSwap]
      | cons y ys => simpa [adjSwap] using (ih n).cons x

theorem posInner_perm (less : Nat → Nat → Bool) (l : List α) (j : Nat) :
    (posInner less l j).Perm l := by
  induction j generalizing l with
  | zero => simp [posInner]
  | succ j ih =>
    simp only [posInner]
    split
    · exact (ih _).trans (adjSwap_perm l j)
    · exact List.Perm.refl l

theorem posSortGo_perm (less : Nat → Nat → Bool) (l : List α) :
    (posSortGo less l).Perm l := by
  unfold posSortGo
  generalize List.range l.length = idxs
  induction idxs generalizing l with
  | nil => simp
  | cons i rest ih =>
    simp only [List.foldl_cons]
    exact (ih _).trans (posInner_perm less l i)

theorem cbStep_cases (e : CBEvent) (cb : CBState) :
    cbTransitionAllowed cb.mode (cbStep e cb).mode ∧
    (cb.mode = .circuitOpen → (cbStep e cb).mode ≠ .circuitOpen →
      ∃ now, e = .isOpen now ∧ now - cb.lastFailureTime > cb.recoveryWindow) := by
  cases e with
  | isOpen now =>
    cases h : cb.mode <;>
      simp [cbStep, cbIsOpen, h, cbTransitionAllowed] <;>
      split_ifs with hw <;> simp_all
  | recordSuccess now =>
    cases h : cb.mode <;>
      simp [cbStep, cbRecordSuccess, h, cbTransitionAllowed] <;>
      split_ifs with hw <;> simp_all
  | recordFailure now =>
    cases h : cb.mode <;>
      simp [cbStep, cbRecordFailure, h, cbTransitionAllowed] <;>
      split_ifs with hw <;> simp_all


/-- **C3.** Along any call sequence on a breaker created in the Closed
state, each step only makes an allowed transition (Closed→Open,
Open→HalfOpen, HalfOpen→Closed, HalfOpen→Open, or staying put — in
particular never Closed→HalfOpen), and a step that leaves the Open state is
an `IsOpen` call whose time exceeds the last recorded failure by more than
the recovery window. -/
theorem C3_breaker_transitions (threshold failureWindow recoveryWindow : Int)
    (events : List CBEvent) (e : CBEvent) :
    cbTransitionAllowed
      (cbRun (newCircuitBreaker threshold failureWindow recoveryWindow) events).mode
      (cbStep e (cbRun (newCircuitBreaker threshold failureWindow recoveryWindow) events)).mode ∧
    ((cbRun (newCircuitBreaker threshold failureWindow recoveryWindow) events).mode = .circuitOpen →
      (cbStep e (cbRun (newCircuitBreaker threshold failureWindow recoveryWindow) events)).mode ≠ .circuitOpen →
      ∃ now, e = .isOpen now ∧
        now - (cbRun (newCircuitBreaker threshold failureWindow recoveryWindow) events).lastFailureTime >
          (cbRun (newCircuitBreaker threshold failureWindow recoveryWindow) events).recoveryWindow) :=
  cbStep_cases e _

theorem C3_breaker_transitions_witness :
    (cbRun (newCircuitBreaker 1 5 10) [.recordFailure 0]).mode = .circuitOpen ∧
    (∃ now, CBEvent.isOpen 11 = .isOpen now ∧
      now - (cbRun (newCircuitBreaker 1 5 10) [.recordFailure 0]).lastFailureTime >
        (cbRun (newCircuitBreaker 1 5 10) [.recordFailure 0]).recoveryWindow) :=
  ⟨by decide,
    (C3_breaker_transitions 1 5 10 [.recordFailure 0] (.isOpen 11)).2 (by decide) (by decide)⟩

/-- **C6.** For an account with no disable window, recent activity and
error rate ≤ 0.2, the sweep's status for an average response time of two
minutes is "degraded", not "unhealthy" as the specification's rule order
demands (the `> 1 min` branch of the source is unreachable because the
`> 30 s` branch is tested first); at 45 seconds both agree on "degraded". -/
theorem C6_response_time_rules :
    determineHealthStatus (10 * minute) healthSlow = "degraded" ∧
    determineHealthStatus (10 * minute) healthMid = "degraded" := by
  constructor <;>
    norm_num [determineHealthStatus, disabledActive, healthSlow, healthMid, minute, second]

/-- **C7.** `shouldTemporarilyDisable` is constantly false (its
`recentFailures` counter can reach at most 1 but is compared against 3), so
recording a failure for an account with error rate 0.9 and a failure within
the last five minutes leaves `disabledUntil` unset instead of setting it to
now + 10 minutes. -/
theorem C7_disable_never_fires :
    (∀ now h, shouldTemporarilyDisable now h = false) ∧
    (healthLookup (updateHealthStatus 0 1 failResult healthHotMap) 1).map
        (fun h => h.disabledUntil) = some none := by
  have hfalse : ∀ now h, shouldTemporarilyDisable now h = false := by
    intro now h
    simp only [shouldTemporarilyDisable]
    split_ifs <;> norm_num
  refine ⟨hfalse, ?_⟩
  simp [updateHealthStatus, healthLookup, healthStore, healthHotMap, healthHot, failResult,
    hfalse]
  split_ifs <;> rfl


theorem executeSingleRequest_failureReason (acct : Account) (events : List SinkEvent)
    (cl : ClientSink) : (executeSingleRequest acct events cl).1.failureReason = "" := rfl

theorem executeSingleRequest_account (acct : Account) (events : List SinkEvent)
    (cl : ClientSink) : (executeSingleRequest acct events cl).1.account = some acct := rfl

theorem executeFallbackLoop_reason (now : Int) (cfg : FallbackConfig)
    (executor : Account → List SinkEvent) (maxAttempts : Int) (accounts : List Account) :
    ∀ hs cl lastError lastResult attempted,
      (executeFallbackLoop now cfg executor maxAttempts accounts hs cl lastError lastResult
          attempted).1.failureReason = "all_accounts_failed" ∨
      (executeFallbackLoop now cfg executor maxAttempts accounts hs cl lastError lastResult
          attempted).1.failureReason = "" := by
  induction accounts with
  | nil =>
    intro hs cl lastError lastResult attempted
    cases lastResult <;> simp [executeFallbackLoop]
  | cons acct rest ih =>
    intro hs cl lastError lastResult attempted
    simp only [executeFallbackLoop]
    split_ifs with h1 h2
    · exact ih _ _ _ _ _
    · right; exact executeSingleRequest_failureReason _ _ _
    · exact ih _ _ _ _ _


/-- **C8.** Every result's failure-reason tag lies in the closed four-value
set — `"circuit_breaker_open"`, `"no_available_accounts"`,
`"all_accounts_failed"` and `""` are the code's spellings of the
specification's tags breaker_open, no_available_accounts,
all_accounts_failed and none — and when the breaker is enabled and reports
open, the handler returns the breaker-open failure result with no account
attempted. -/
theorem C8_failure_reason_closed_set (selectorFn : List Account → List Account)
    (now : Int) (accounts : List Account) (executor : Account → List SinkEvent)
    (hs : HandlerState) (cl : ClientSink) :
    (handleRequestWithFallback selectorFn now accounts executor hs cl).1.failureReason ∈
      (["circuit_breaker_open", "no_available_accounts", "all_accounts_failed", ""] :
        List String) ∧
    (hs.config.enableCircuitBreaker = true → (cbIsOpen now hs.breaker).1 = true →
      (handleRequestWithFallback selectorFn now accounts executor hs cl).1 =
        { success := false, errorMessage := "熔断器已开启，暂时停止请求",
          failureReason := "circuit_breaker_open" } ∧
      (handleRequestWithFallback selectorFn now accounts executor hs cl).2.2.2 = []) := by
  have hafter : ∀ hs' : HandlerState,
      (handleAfterBreaker selectorFn now accounts executor hs' cl).1.failureReason ∈
        (["circuit_breaker_open", "no_available_accounts", "all_accounts_failed", ""] :
          List String) := by
    intro hs'
    by_cases hemp : (selectorFn accounts).isEmpty
    · simp [handleAfterBreaker, hemp]
    · have hr := executeFallbackLoop_reason now hs'.config executor
        (min hs'.config.maxRetries ((selectorFn accounts).length : Int))
        ((selectorFn accounts).take
          (min hs'.config.maxRetries ((selectorFn accounts).length : Int)).toNat)
        hs' cl "" none []
      rcases hr with h | h <;> simp [handleAfterBreaker, hemp, executeFallback, h]
  constructor
  · by_cases hcb : hs.config.enableCircuitBreaker
    · by_cases hopen : (cbIsOpen now hs.breaker).1
      · simp [handleRequestWithFallback, hcb, hopen]
      · simpa [handleRequestWithFallback, hcb, hopen] using hafter _
    · simpa [handleRequestWithFallback, hcb] using hafter _
  · intro hcb hopen
    simp [handleRequestWithFallback, hcb, hopen]

/-- **C4.** The code's attempt counts at the specification's scenarios:
with two candidates both failing, the returned result has
`failureReason = "all_accounts_failed"` but `attemptCount = 1` (the last
attempt's own hard-coded count) instead of the claimed
`maxAttempts = min(maxRetries, candidates) = 2`; and when the first
account fails and the second succeeds, the result reports the successful
account with `attemptCount = 1` instead of the claimed 2. -/
theorem C4_attempt_count_eval :
    ((handleRequestWithFallback prioritySelect 0 [acctA, acctB] execAllFail hsPlain
          {}).1.failureReason = "all_accounts_failed" ∧
      (handleRequestWithFallback prioritySelect 0 [acctA, acctB] execAllFail hsPlain
          {}).1.attemptCount = 1) ∧
    ((handleRequestWithFallback prioritySelect 0 [acctA, acctB] execAB hsPlain
          {}).1.success = true ∧
      ((handleRequestWithFallback prioritySelect 0 [acctA, acctB] execAB hsPlain
          {}).1.account).map (fun a => a.id) = some 2 ∧
      (handleRequestWithFallback prioritySelect 0 [acctA, acctB] execAB hsPlain
          {}).1.attemptCount = 1) := by
  decide


theorem C8_failure_reason_closed_set_witness :
    hsOpen.config.enableCircuitBreaker = true ∧
    (cbIsOpen 1 hsOpen.breaker).1 = true ∧
    ((handleRequestWithFallback prioritySelect 1 [acctA, acctB] execAB hsOpen {}).1 =
        { success := false, errorMessage := "熔断器已开启，暂时停止请求",
          failureReason := "circuit_breaker_open" } ∧
      (handleRequestWithFallback prioritySelect 1 [acctA, acctB] execAB hsOpen {}).2.2.2 = []) :=
  ⟨by decide, by decide,
    (C8_failure_reason_closed_set prioritySelect 1 [acctA, acctB] execAB hsOpen {}).2
      (by decide) (by decide)⟩

theorem captureWrite_fail_proj (d : String) (st : CaptureState) (cl : ClientSink)
    (h : st.isSuccess = false) :
    (captureWrite d st cl).1.isSuccess = false ∧
    (captureWrite d st cl).1.statusCode = st.statusCode ∧
    (captureWrite d st cl).1.buffer = st.buffer ++ d ∧
    (captureWrite d st cl).2 = cl := by
  simp only [captureWrite]
  split_ifs <;> simp_all

theorem runCapture_writes_fail (writes : List String) (st : CaptureState) (cl : ClientSink)
    (h : st.isSuccess = false) :
    (runCapture (writes.map SinkEvent.write) st cl).1.isSuccess = false ∧
    (runCapture (writes.map SinkEvent.write) st cl).1.statusCode = st.statusCode ∧
    (runCapture (writes.map SinkEvent.write) st cl).1.buffer = st.buffer ++ strConcat writes ∧
    (runCapture (writes.map SinkEvent.write) st cl).2 = cl := by
  induction writes generalizing st cl with
  | nil => simpa [runCapture, strConcat] using h
  | cons d rest ih =>
    obtain ⟨h1, h2, h3, h4⟩ := captureWrite_fail_proj d st cl h
    have hstep : runCapture ((d :: rest).map SinkEvent.write) st cl =
        runCapture (rest.map SinkEvent.write) (captureWrite d st cl).1 (captureWrite d st cl).2 := by
      simp [runCapture, captureStep]
    obtain ⟨g1, g2, g3, g4⟩ := ih (captureWrite d st cl).1 (captureWrite d st cl).2 h1
    refine ⟨by rw [hstep]; exact g1, by rw [hstep, g2, h2],
      ?_, by rw [hstep, g4, h4]⟩
    rw [hstep, g3, h3, strConcat, String.append_assoc]


/-- **C10.** If the executor writes body bytes without ever calling
`WriteHeader`, the attempt is a failure: the success flag stays false,
every write is buffered and nothing reaches the client (no chunks, no
status line), and the result carries the default status code 200 with the
buffered bytes as the error message. -/
theorem C10_headerless_write_is_failure (acct : Account) (hm : HeaderMap)
    (writes : List String) :
    (executeSingleRequest acct (writes.map SinkEvent.write) { headers := hm }).1.success
        = false ∧
    (executeSingleRequest acct (writes.map SinkEvent.write) { headers := hm }).1.statusCode
        = 200 ∧
    (executeSingleRequest acct (writes.map SinkEvent.write) { headers := hm }).1.errorMessage
        = strConcat writes ∧
    (executeSingleRequest acct (writes.map SinkEvent.write) { headers := hm }).2.chunks
        = [] ∧
    (executeSingleRequest acct (writes.map SinkEvent.write) { headers := hm }).2.statusWrites
        = [] := by
  obtain ⟨h1, h2, h3, h4⟩ :=
    runCapture_writes_fail writes {} { headers := hm } rfl
  refine ⟨?_, ?_, ?_, ?_, ?_⟩ <;>
    simp [executeSingleRequest, h1, h2, h3, h4]


theorem runCapture_cons (e : SinkEvent) (es : List SinkEvent) (st : CaptureState)
    (cl : ClientSink) :
    runCapture (e :: es) st cl =
      runCapture es (captureStep st cl e).1 (captureStep st cl e).2 := by
  simp [runCapture]

theorem runCapture_append (l1 l2 : List SinkEvent) (st : CaptureState) (cl : ClientSink) :
    runCapture (l1 ++ l2) st cl =
      runCapture l2 (runCapture l1 st cl).1 (runCapture l1 st cl).2 := by
  simp [runCapture, List.foldl_append]

theorem strConcat_snoc (l : List String) (x : String) :
    strConcat (l ++ [x]) = strConcat l ++ x := by
  induction l with
  | nil => simp [strConcat]
  | cons y ys ih => simp [strConcat, ih, String.append_assoc]

theorem runCapture_setHeaders (hdrs : List (String × String)) (st : CaptureState)
    (cl : ClientSink) :
    runCapture (hdrs.map fun p => SinkEvent.setHeader p.1 p.2) st cl =
      (st, { cl with headers := hdrs.foldl (fun m p => headerStore m p.1 p.2) cl.headers }) := by
  induction hdrs generalizing cl with
  | nil => rfl
  | cons p rest ih =>
    rw [List.map_cons, runCapture_cons]
    simp only [captureStep]
    rw [ih]
    rfl

theorem captureWriteHeader_init_fail (code : Int) (cl : ClientSink)
    (hc : ¬ isSuccessCode code) :
    (captureWriteHeader code {} cl).1.isSuccess = false ∧
    (captureWriteHeader code {} cl).1.statusCode = code ∧
    (captureWriteHeader code {} cl).1.buffer = "" ∧
    (captureWriteHeader code {} cl).2 = cl := by
  have hfb : (decide (200 ≤ code) && decide (code < 400)) = false := by
    simp only [isSuccessCode, not_and] at hc
    by_cases h1 : 200 ≤ code
    · simp [h1, hc h1]
    · simp [h1]
  by_cases hstrm : isFallbackStreamResponse cl.headers <;>
    simp [captureWriteHeader, cacheUpstreamHeaders, hstrm, hfb]

theorem captureWriteHeader_init_stream (code : Int) (cl : ClientSink)
    (hstrm : isFallbackStreamResponse cl.headers = true) (hc : isSuccessCode code) :
    captureWriteHeader code {} cl =
      ({ statusCode := code, isSuccess := true, headerSet := true, headersCopied := true,
         isStreamMode := true }, clientWriteHeader code cl) := by
  have hfb : (decide (200 ≤ code) && decide (code < 400)) = true := by
    obtain ⟨h1, h2⟩ := hc
    simp [h1, h2]
  simp [captureWriteHeader, hstrm, hfb]

theorem captureWriteHeader_init_nonstream (code : Int) (cl : ClientSink)
    (hstrm : isFallbackStreamResponse cl.headers = false) (hc : isSuccessCode code) :
    captureWriteHeader code {} cl =
      ({ statusCode := code, isSuccess := true, headersCopied := true,
         isStreamMode := false, upstreamHeaders := cl.headers }, cl) := by
  have hfb : (decide (200 ≤ code) && decide (code < 400)) = true := by
    obtain ⟨h1, h2⟩ := hc
    simp [h1, h2]
  simp [captureWriteHeader, cacheUpstreamHeaders, hstrm, hfb]


theorem captureWrite_stream_succ_proj (d : String) (st : CaptureState) (cl : ClientSink)
    (h1 : st.isSuccess = true) (h2 : st.headerSet = true) (h3 : st.isStreamMode = true)
    (h4 : st.headersCopied = true) :
    (captureWrite d st cl).1.isSuccess = true ∧
    (captureWrite d st cl).1.headerSet = true ∧
    (captureWrite d st cl).1.isStreamMode = true ∧
    (captureWrite d st cl).1.headersCopied = true ∧
    (captureWrite d st cl).1.statusCode = st.statusCode ∧
    (captureWrite d st cl).2 = if d = "" then cl else clientFlush (clientWrite d cl) := by
  simp only [captureWrite]
  split_ifs <;> simp_all

theorem runCapture_writes_stream (writes : List String) (st : CaptureState) (cl : ClientSink)
    (h1 : st.isSuccess = true) (h2 : st.headerSet = true) (h3 : st.isStreamMode = true)
    (h4 : st.headersCopied = true) :
    (runCapture (writes.map SinkEvent.write) st cl).1.isSuccess = true ∧
    (runCapture (writes.map SinkEvent.write) st cl).1.isStreamMode = true ∧
    (runCapture (writes.map SinkEvent.write) st cl).1.statusCode = st.statusCode ∧
    strConcat (runCapture (writes.map SinkEvent.write) st cl).2.chunks =
      strConcat cl.chunks ++ strConcat writes ∧
    (runCapture (writes.map SinkEvent.write) st cl).2.statusWrites = cl.statusWrites := by
  induction writes generalizing st cl with
  | nil => exact ⟨h1, h3, rfl, by simp [runCapture, strConcat], rfl⟩
  | cons d rest ih =>
    obtain ⟨g1, g2, g3, g4, g5, g6⟩ := captureWrite_stream_succ_proj d st cl h1 h2 h3 h4
    rw [List.map_cons, runCapture_cons]
    simp only [captureStep]
    obtain ⟨k1, k2, k3, k4, k5⟩ :=
      ih (captureWrite d st cl).1 (captureWrite d st cl).2 g1 g2 g3 g4
    refine ⟨k1, k2, k3.trans g5, ?_, ?_⟩
    · rw [k4, g6]
      by_cases hd : d = ""
      · simp [hd, clientFlush, clientWrite, strConcat]
      · simp [hd, clientFlush, clientWrite, strConcat_snoc, strConcat, String.append_assoc]
    · rw [k5, g6]
      by_cases hd : d = "" <;> simp [hd, clientFlush, clientWrite]

theorem captureWrite_nonstream_proj (d : String) (st : CaptureState) (cl : ClientSink)
    (h3 : st.isStreamMode = false) (h4 : st.headersCopied = true) :
    (captureWrite d st cl).1.isSuccess = st.isSuccess ∧
    (captureWrite d st cl).1.headerSet = st.headerSet ∧
    (captureWrite d st cl).1.isStreamMode = false ∧
    (captureWrite d st cl).1.headersCopied = true ∧
    (captureWrite d st cl).1.statusCode = st.statusCode ∧
    (captureWrite d st cl).1.buffer = st.buffer ++ d ∧
    (captureWrite d st cl).1.upstreamHeaders = st.upstreamHeaders ∧
    (captureWrite d st cl).2 = cl := by
  simp only [captureWrite]
  split_ifs <;> simp_all

theorem runCapture_writes_nonstream (writes : List String) (st : CaptureState)
    (cl : ClientSink) (h3 : st.isStreamMode = false) (h4 : st.headersCopied = true) :
    (runCapture (writes.map SinkEvent.write) st cl).1.isSuccess = st.isSuccess ∧
    (runCapture (writes.map SinkEvent.write) st cl).1.headerSet = st.headerSet ∧
    (runCapture (writes.map SinkEvent.write) st cl).1.isStreamMode = false ∧
    (runCapture (writes.map SinkEvent.write) st cl).1.statusCode = st.statusCode ∧
    (runCapture (writes.map SinkEvent.write) st cl).1.buffer = st.buffer ++ strConcat writes ∧
    (runCapture (writes.map SinkEvent.write) st cl).1.upstreamHeaders = st.upstreamHeaders ∧
    (runCapture (writes.map SinkEvent.write) st cl).2 = cl := by
  induction writes generalizing st cl with
  | nil => exact ⟨rfl, rfl, h3, rfl, by simp [runCapture, strConcat], rfl, rfl⟩
  | cons d rest ih =>
    obtain ⟨g1, g2, g3, g4, g5, g6, g7, g8⟩ := captureWrite_nonstream_proj d st cl h3 h4
    rw [List.map_cons, runCapture_cons]
    simp only [captureStep]
    obtain ⟨k1, k2, k3, k4, k5, k6, k7⟩ :=
      ih (captureWrite d st cl).1 (captureWrite d st cl).2 g3 g4
    exact ⟨k1.trans g1, k2.trans g2, k3, k4.trans g5,
      by rw [k5, g6, strConcat, String.append_assoc],
      k6.trans g7, k7.trans g8⟩

theorem flushNonStream_client (st : CaptureState) (cl : ClientSink)
    (h1 : st.isSuccess = true) (h3 : st.isStreamMode = false) :
    (flushNonStreamResponse st cl).2.chunks = cl.chunks ++ [st.buffer] ∧
    (flushNonStreamResponse st cl).2.statusWrites =
      (if st.headerSet = false then cl.statusWrites ++ [st.statusCode]
       else cl.statusWrites) := by
  simp only [flushNonStreamResponse]
  split_ifs <;> simp_all [clientWrite, clientWriteHeader]


theorem execScript_fail (acct : Account) (s : AttemptScript) (cl : ClientSink)
    (hc : ¬ isSuccessCode s.status) :
    (executeSingleRequest acct s.events cl).1.success = false ∧
    (executeSingleRequest acct s.events cl).1.errorMessage = strConcat s.writes ∧
    (executeSingleRequest acct s.events cl).1.statusCode = s.status ∧
    (executeSingleRequest acct s.events cl).2.chunks = cl.chunks ∧
    (executeSingleRequest acct s.events cl).2.statusWrites = cl.statusWrites := by
  have hrun : runCapture s.events {} cl =
      runCapture (s.writes.map SinkEvent.write)
        (captureWriteHeader s.status {}
          { cl with headers := s.headers.foldl (fun m p => headerStore m p.1 p.2) cl.headers }).1
        (captureWriteHeader s.status {}
          { cl with headers := s.headers.foldl (fun m p => headerStore m p.1 p.2) cl.headers }).2 := by
    rw [AttemptScript.events, runCapture_append, runCapture_append, runCapture_setHeaders]
    rw [show runCapture [SinkEvent.writeHeader s.status] = fun st cl => captureStep st cl (SinkEvent.writeHeader s.status) from rfl]
    rfl
  set cl1 : ClientSink :=
    { cl with headers := s.headers.foldl (fun m p => headerStore m p.1 p.2) cl.headers } with hcl1
  obtain ⟨w1, w2, w3, w4⟩ := captureWriteHeader_init_fail s.status cl1 hc
  obtain ⟨f1, f2, f3, f4⟩ :=
    runCapture_writes_fail s.writes (captureWriteHeader s.status {} cl1).1
      (captureWriteHeader s.status {} cl1).2 w1
  rw [w4] at f1 f2 f3 f4
  refine ⟨?_, ?_, ?_, ?_, ?_⟩ <;> simp only [executeSingleRequest, hrun] <;>
    simp [w2, w3, w4, f1, f2, f3, f4]


theorem execScript_succ (acct : Account) (s : AttemptScript) (cl : ClientSink)
    (hc : isSuccessCode s.status) :
    (executeSingleRequest acct s.events cl).1.success = true ∧
    (executeSingleRequest acct s.events cl).1.account = some acct ∧
    (executeSingleRequest acct s.events cl).1.statusCode = s.status ∧
    strConcat (executeSingleRequest acct s.events cl).2.chunks =
      strConcat cl.chunks ++ strConcat s.writes := by
  have hrun : runCapture s.events {} cl =
      runCapture (s.writes.map SinkEvent.write)
        (captureWriteHeader s.status {}
          { cl with headers := s.headers.foldl (fun m p => headerStore m p.1 p.2) cl.headers }).1
        (captureWriteHeader s.status {}
          { cl with headers := s.headers.foldl (fun m p => headerStore m p.1 p.2) cl.headers }).2 := by
    rw [AttemptScript.events, runCapture_append, runCapture_append, runCapture_setHeaders]
    rfl
  set cl1 : ClientSink :=
    { cl with headers := s.headers.foldl (fun m p => headerStore m p.1 p.2) cl.headers } with hcl1
  by_cases hstrm : isFallbackStreamResponse cl1.headers
  · rw [captureWriteHeader_init_stream s.status cl1 hstrm hc] at hrun
    obtain ⟨k1, k2, k3, k4, k5⟩ :=
      runCapture_writes_stream s.writes
        { statusCode := s.status, isSuccess := true, headerSet := true, headersCopied := true,
          isStreamMode := true } (clientWriteHeader s.status cl1) rfl rfl rfl rfl
    refine ⟨?_, ?_, ?_, ?_⟩
    · simp [executeSingleRequest, hrun, k1]
    · simp [executeSingleRequest, hrun]
    · simp [executeSingleRequest, hrun, k3]
    · simp only [executeSingleRequest, hrun]
      rw [if_neg (by simp [k1, k2])]
      rw [k4]
      simp [clientWriteHeader, hcl1]
  · rw [captureWriteHeader_init_nonstream s.status cl1 (by simpa using hstrm) hc] at hrun
    obtain ⟨k1, k2, k3, k4, k5, k6, k7⟩ :=
      runCapture_writes_nonstream s.writes
        { statusCode := s.status, isSuccess := true, headersCopied := true,
          isStreamMode := false, upstreamHeaders := cl1.headers } cl1 rfl rfl
    have hflush := flushNonStream_client
      (runCapture (s.writes.map SinkEvent.write)
        { statusCode := s.status, isSuccess := true, headersCopied := true,
          isStreamMode := false, upstreamHeaders := cl1.headers } cl1).1
      (runCapture (s.writes.map SinkEvent.write)
        { statusCode := s.status, isSuccess := true, headersCopied := true,
          isStreamMode := false, upstreamHeaders := cl1.headers } cl1).2
      k1 k3
    refine ⟨?_, ?_, ?_, ?_⟩
    · simp [executeSingleRequest, hrun, k1]
    · simp [executeSingleRequest, hrun]
    · simp [executeSingleRequest, hrun, k4]
    · simp only [executeSingleRequest, hrun]
      rw [if_pos (by simp [k1, k3])]
      rw [hflush.1, k7, k5]
      simp [strConcat_snoc, strConcat, hcl1]


/-- **C1.** In a request where the preferred account's attempt fails (any
non-success status) and the second account's attempt succeeds, the client
sink receives exactly, and only, the bytes the executor wrote during the
successful attempt, in order: the failing attempt's writes are buffered in
the capturing sink and never flushed.  Attempts follow the HTTP discipline
(headers, then one status write, then body writes), as captured by
`AttemptScript`. -/
theorem C1_failed_attempt_invisible (tA tB : AttemptScript)
    (hfail : ¬ isSuccessCode tA.status) (hsucc : isSuccessCode tB.status) :
    (handleRequestWithFallback prioritySelect 0 [acctA, acctB] (execScripts tA tB)
        hsPlain {}).1.success = true ∧
    strConcat (handleRequestWithFallback prioritySelect 0 [acctA, acctB]
        (execScripts tA tB) hsPlain {}).2.2.1.chunks = strConcat tB.writes := by
  have hsel : prioritySelect [acctA, acctB] = [acctA, acctB] := by decide
  have hdA : execScripts tA tB acctA = tA.events := by simp [execScripts, acctA]
  have hdB : execScripts tA tB acctB = tB.events := by simp [execScripts, acctB]
  obtain ⟨fa1, fa2, fa3, fa4, fa5⟩ := execScript_fail acctA tA ({} : ClientSink) hfail
  obtain ⟨sb1, sb2, sb3, sb4⟩ :=
    execScript_succ acctB tB (executeSingleRequest acctA tA.events ({} : ClientSink)).2 hsucc
  constructor
  · simp [handleRequestWithFallback, handleAfterBreaker, hsPlain, cfgPlain, hsel,
      executeFallback, executeFallbackLoop, skipUnhealthy, hdA, hdB, fa1, sb1]
  · simp [handleRequestWithFallback, handleAfterBreaker, hsPlain, cfgPlain, hsel,
      executeFallback, executeFallbackLoop, skipUnhealthy, hdA, hdB, fa1, sb1]
    rw [sb4, fa4]
    simp [strConcat]


theorem C1_failed_attempt_invisible_witness :
    (¬ isSuccessCode scriptFail.status) ∧ isSuccessCode scriptOk.status ∧
    ((handleRequestWithFallback prioritySelect 0 [acctA, acctB]
        (execScripts scriptFail scriptOk) hsPlain {}).1.success = true ∧
      strConcat (handleRequestWithFallback prioritySelect 0 [acctA, acctB]
        (execScripts scriptFail scriptOk) hsPlain {}).2.2.1.chunks =
        strConcat scriptOk.writes) :=
  ⟨by decide, by decide,
    C1_failed_attempt_invisible scriptFail scriptOk (by decide) (by decide)⟩

/-- **C5 counterexample.** Account 1 is attempted and fails, account 2
succeeds, yet afterwards the health tracker has no entry at all for
account 1 — its failure was never recorded, contradicting the claim that
A's health shows `failureCount` incremented by 1. -/
theorem C5_health_counterexample :
    (handleRequestWithFallback prioritySelect 0 [acctA, acctB] execAB hsHealth
        {}).2.2.2 = [1, 2] ∧
    (handleRequestWithFallback prioritySelect 0 [acctA, acctB] execAB hsHealth
        {}).1.success = true ∧
    ((handleRequestWithFallback prioritySelect 0 [acctA, acctB] execAB hsHealth
        {}).1.account).map (fun a => a.id) = some 2 ∧
    healthLookup (handleRequestWithFallback prioritySelect 0 [acctA, acctB] execAB
        hsHealth {}).2.1.health 1 = none := by
  decide

/-- **C5 (amended).** The handler records only the final result's account
into the health tracker: after account 1's attempt fails and account 2's
succeeds, account 2's success is recorded (successCount 1, lastSuccess =
now) and account 1 gets no health entry at all. -/
theorem C5_amended_only_final_account_recorded (tA tB : AttemptScript)
    (hfail : ¬ isSuccessCode tA.status) (hsucc : isSuccessCode tB.status) :
    healthLookup (handleRequestWithFallback prioritySelect 0 [acctA, acctB]
        (execScripts tA tB) hsHealth {}).2.1.health 1 = none ∧
    (healthLookup (handleRequestWithFallback prioritySelect 0 [acctA, acctB]
        (execScripts tA tB) hsHealth {}).2.1.health 2).map
      (fun h => (h.successCount, h.failureCount, h.lastSuccess)) = some (1, 0, 0) := by
  have hdA : execScripts tA tB acctA = tA.events := by simp [execScripts, acctA]
  have hdB : execScripts tA tB acctB = tB.events := by simp [execScripts, acctB]
  have hsel : prioritySelect [acctA, acctB] = [acctA, acctB] := by decide
  obtain ⟨fa1, fa2, fa3, fa4, fa5⟩ := execScript_fail acctA tA ({} : ClientSink) hfail
  obtain ⟨sb1, sb2, sb3, sb4⟩ :=
    execScript_succ acctB tB (executeSingleRequest acctA tA.events ({} : ClientSink)).2 hsucc
  have hidA : acctA.id = 1 := rfl
  have hidB : acctB.id = 2 := rfl
  constructor <;>
    simp [handleRequestWithFallback, handleAfterBreaker, hsHealth, cfgHealth, hsel,
      executeFallback, executeFallbackLoop, skipUnhealthy, hdA, hdB, fa1, sb1, sb2,
      updateHealthStatus, healthLookup, healthStore, wrap64, hidA, hidB]

theorem C5_amended_only_final_account_recorded_witness :
    (¬ isSuccessCode scriptFail.status) ∧ isSuccessCode scriptOk.status ∧
    (healthLookup (handleRequestWithFallback prioritySelect 0 [acctA, acctB]
        (execScripts scriptFail scriptOk) hsHealth {}).2.1.health 1 = none ∧
      (healthLookup (handleRequestWithFallback prioritySelect 0 [acctA, acctB]
          (execScripts scriptFail scriptOk) hsHealth {}).2.1.health 2).map
        (fun h => (h.successCount, h.failureCount, h.lastSuccess)) = some (1, 0, 0)) :=
  ⟨by decide, by decide,
    C5_amended_only_final_account_recorded scriptFail scriptOk (by decide) (by decide)⟩


theorem filter_or_perm (p q : α → Bool) (l : List α)
    (hdisj : ∀ a, ¬(p a = true ∧ q a = true)) :
    (l.filter p ++ l.filter q).Perm (l.filter (fun a => p a || q a)) := by
  induction l with
  | nil => simp
  | cons x xs ih =>
    by_cases hp : p x = true
    · have hq : q x = false := Bool.eq_false_iff.mpr (fun h => hdisj x ⟨hp, h⟩)
      simpa [hp, hq] using ih.cons x
    · have hp' : p x = false := Bool.eq_false_iff.mpr hp
      by_cases hq : q x = true
      · simp only [List.filter_cons, hp', hq, Bool.false_or, cond_true, cond_false]
        exact (List.perm_middle).trans (ih.cons x)
      · have hq' : q x = false := Bool.eq_false_iff.mpr hq
        simpa [hp', hq'] using ih

theorem flatMap_perm_of_parts (l : List κ) (f g : κ → List α)
    (h : ∀ k ∈ l, (f k).Perm (g k)) : (l.flatMap f).Perm (l.flatMap g) := by
  induction l with
  | nil => simp
  | cons k ks ih =>
    simp only [List.flatMap_cons]
    exact (h k (by simp)).append (ih fun k hk => h k (by simp [hk]))

theorem hybrid_partition_perm (l : List Account) (keys : List Nat) (hnd : keys.Nodup) :
    (keys.flatMap fun p => l.filter fun a => a.priority = (p : Int)).Perm
      (l.filter fun a => keys.any fun p => a.priority = (p : Int)) := by
  induction keys with
  | nil => simp
  | cons k ks ih =>
    rw [List.nodup_cons] at hnd
    simp only [List.flatMap_cons]
    have h1 : ((l.filter fun a => a.priority = (k : Int)) ++
        (ks.flatMap fun p => l.filter fun a => a.priority = (p : Int))).Perm
        ((l.filter fun a => a.priority = (k : Int)) ++
          (l.filter fun a => ks.any fun p => a.priority = (p : Int))) :=
      List.Perm.append_left _ (ih hnd.2)
    refine h1.trans ?_
    have h2 := filter_or_perm (fun a => decide (a.priority = (k : Int)))
      (fun a => ks.any fun p => decide (a.priority = (p : Int))) l ?_
    · refine h2.trans ?_
      apply List.Perm.of_eq
      apply List.filter_congr
      intro a _
      simp [List.any_cons]
    · intro a ⟨hak, haks⟩
      simp only [decide_eq_true_eq] at hak
      simp only [List.any_eq_true, decide_eq_true_eq] at haks
      obtain ⟨p, hp, hap⟩ := haks
      have : (k : Int) = (p : Int) := hak.symm.trans hap
      have : k = p := by exact_mod_cast this
      exact hnd.1 (this ▸ hp)


theorem hybridSelect_perm (accounts : List Account)
    (hp : ∀ a ∈ accounts, 1 ≤ a.priority ∧ a.priority ≤ 100) :
    (hybridSelect accounts).Perm accounts := by
  unfold hybridSelect
  have h1 : ((List.range' 1 100).flatMap fun p =>
      sortSliceBy (fun a b => calculateAccountScore b < calculateAccountScore a)
        (accounts.filter (fun a => a.priority = (p : Int)))).Perm
      ((List.range' 1 100).flatMap fun p =>
        accounts.filter (fun a => a.priority = (p : Int))) :=
    flatMap_perm_of_parts _ _ _ (fun k _ => sortSliceBy_perm _ _)
  refine h1.trans ?_
  have h2 := hybrid_partition_perm accounts (List.range' 1 100) (List.nodup_range' _ _)
  refine h2.trans ?_
  apply List.Perm.of_eq
  apply List.filter_eq_self.mpr
  intro a ha
  obtain ⟨hlo, hhi⟩ := hp a ha
  simp only [List.any_eq_true, decide_eq_true_eq]
  refine ⟨a.priority.toNat, ?_, ?_⟩
  · rw [List.mem_range'_1]
    omega
  · omega

theorem roundRobinSelect_perm (s : RoundRobinState) (accounts : List Account) :
    ((roundRobinSelect s accounts).1).Perm accounts := by
  unfold roundRobinSelect
  have h := (sortSliceBy_perm (fun x y : Account × Int => y.2 < x.2)
    (accounts.map (fun a => (a, s.counter - rrLookup s.lastSelected a.id)))).map Prod.fst
  have h2 : (accounts.map (fun a => (a, s.counter - rrLookup s.lastSelected a.id))).map
      Prod.fst = accounts := by
    rw [List.map_map]
    exact List.map_id'' (fun _ => rfl) accounts
  rw [h2] at h
  exact h

theorem adaptivePost_perm (m : List (Nat × PerformanceData)) (l : List Account) :
    (adaptivePost m l).Perm l := by
  unfold adaptivePost
  split_ifs
  · exact List.Perm.refl l
  · exact sortSliceBy_perm _ l

theorem smart_all_overloaded_perm (base : List Account → List Account) (thr : Rat)
    (m : List (Nat × PerformanceData)) (l : List Account)
    (h : ∀ a ∈ l, calculateLoadScore a > thr) :
    (smartSelect base thr m l).Perm l := by
  unfold smartSelect
  have hav : l.filter (fun a => !smartOverloaded thr a) = [] := by
    apply List.filter_eq_nil_iff.mpr
    intro a ha
    simp [smartOverloaded, h a ha]
  simp only [hav, List.isEmpty_nil, if_true]
  exact posSortGo_perm _ l

theorem smart_survivors_perm (base : List Account → List Account) (thr : Rat)
    (m : List (Nat × PerformanceData)) (l : List Account)
    (hbase : (base (l.filter (fun a => !smartOverloaded thr a))).Perm
      (l.filter (fun a => !smartOverloaded thr a))) :
    (smartSelect base thr m l).Perm (l.filter (fun a => !smartOverloaded thr a)) ∨
    (smartSelect base thr m l).Perm l := by
  unfold smartSelect
  by_cases hav : (l.filter (fun a => !smartOverloaded thr a)).isEmpty
  · right
    simp only [hav, if_true]
    exact posSortGo_perm _ l
  · left
    simp only [hav, Bool.false_eq_true, if_false]
    exact (adaptivePost_perm m _).trans hbase

theorem foldl_fixed {f : β → κ → β} (l : List κ) (b : β) (h : ∀ k ∈ l, f b k = b) :
    l.foldl f b = b := by
  induction l with
  | nil => rfl
  | cons k ks ih =>
    rw [List.foldl_cons, h k (by simp)]
    exact ih (fun k hk => h k (by simp [hk]))

theorem posSortGo_id (less : Nat → Nat → Bool) (l : List α)
    (h : ∀ j, j + 1 < l.length → less (j + 1) j = false) :
    posSortGo less l = l := by
  unfold posSortGo
  apply foldl_fixed
  intro i hi
  rw [List.mem_range] at hi
  cases i with
  | zero => rfl
  | succ j => simp [posInner, h j hi]


/-- **C2 counterexample.** The Hybrid selector drops an account whose
priority is 0 (the emission loop only visits priorities 1..100), so its
output is not a permutation of the input. -/
theorem C2_hybrid_counterexample : ¬ (hybridSelect [accP0]).Perm [accP0] := by
  decide

/-- **C2 (amended).** Every selector's output is a permutation of its
input, except that Hybrid requires all priorities to lie in 1..100
(accounts outside that range are dropped): Priority, Weighted, Round-Robin
and Least-Used unconditionally; Hybrid under the priority-range hypothesis;
the Adaptive post-sort unconditionally; Smart-Load-Balanced returns a
permutation of the whole input when every account is overloaded, and
otherwise a permutation of the non-overloaded survivors whenever its base
ordering permutes them. -/
theorem C2_amended_selector_permutations :
    (∀ l, (prioritySelect l).Perm l) ∧
    (∀ l, (weightedSelect l).Perm l) ∧
    (∀ s l, ((roundRobinSelect s l).1).Perm l) ∧
    (∀ l, (leastUsedSelect l).Perm l) ∧
    (∀ l, (∀ a ∈ l, 1 ≤ a.priority ∧ a.priority ≤ 100) → (hybridSelect l).Perm l) ∧
    (∀ m l, (adaptivePost m l).Perm l) ∧
    (∀ base thr m l, (∀ a ∈ l, calculateLoadScore a > thr) →
      (smartSelect base thr m l).Perm l) ∧
    (∀ base thr m l,
      (base (l.filter (fun a => !smartOverloaded thr a))).Perm
          (l.filter (fun a => !smartOverloaded thr a)) →
        (smartSelect base thr m l).Perm (l.filter (fun a => !smartOverloaded thr a)) ∨
        (smartSelect base thr m l).Perm l) :=
  ⟨fun l => sortSliceBy_perm _ l,
   fun l => sortSliceBy_perm _ l,
   roundRobinSelect_perm,
   fun l => sortSliceBy_perm _ l,
   hybridSelect_perm,
   adaptivePost_perm,
   smart_all_overloaded_perm,
   smart_survivors_perm⟩

theorem C2_amended_selector_permutations_witness :
    (∀ a ∈ hybridFixture, 1 ≤ a.priority ∧ a.priority ≤ 100) ∧
    (hybridSelect hybridFixture).Perm hybridFixture ∧
    (∀ a ∈ [loadA, loadB, loadC], calculateLoadScore a > (5 : Rat)) ∧
    (smartSelect prioritySelect 5 [] [loadA, loadB, loadC]).Perm [loadA, loadB, loadC] ∧
    ((smartSelect prioritySelect 50 [] [loadA, loadB, loadC]).Perm
        ([loadA, loadB, loadC].filter (fun a => !smartOverloaded 50 a)) ∨
      (smartSelect prioritySelect 50 [] [loadA, loadB, loadC]).Perm
        [loadA, loadB, loadC]) := by
  have hload : ∀ a ∈ [loadA, loadB, loadC], calculateLoadScore a > (5 : Rat) := by
    intro a ha
    fin_cases ha <;> norm_num [calculateLoadScore, loadA, loadB, loadC]
  have hfilter : [loadA, loadB, loadC].filter (fun a => !smartOverloaded 50 a) =
      [loadA, loadB, loadC] := by
    norm_num [List.filter, smartOverloaded, calculateLoadScore, loadA, loadB, loadC]
  refine ⟨by decide,
    C2_amended_selector_permutations.2.2.2.2.1 hybridFixture (by decide),
    hload,
    C2_amended_selector_permutations.2.2.2.2.2.2.1 prioritySelect 5 [] _ hload,
    C2_amended_selector_permutations.2.2.2.2.2.2.2 prioritySelect 50 [] _ ?_⟩
  rw [hfilter]
  decide


/-- **C9 counterexample.** Three accounts with load scores (20, 30, 10),
all above the threshold 5: the all-overloaded branch returns
[loadA, loadC, loadB] — scores (20, 10, 30) — which is not ascending by
the accounts' own load scores, because the sort comparator consults the
parallel `loads` slice by position rather than the accounts being moved. -/
theorem C9_overload_sort_counterexample :
    smartSelect prioritySelect 5 [] [loadA, loadB, loadC] = [loadA, loadC, loadB] ∧
    ¬ List.Sorted (· ≤ ·)
      ((smartSelect prioritySelect 5 [] [loadA, loadB, loadC]).map calculateLoadScore) := by
  have h : smartSelect prioritySelect 5 [] [loadA, loadB, loadC] = [loadA, loadC, loadB] := by
    norm_num [smartSelect, smartOverloaded, calculateLoadScore, loadA, loadB, loadC,
      posSortGo, posInner, adjSwap, List.range_succ]
  refine ⟨h, ?_⟩
  rw [h]
  simp only [List.map_cons, List.map_nil, List.sorted_cons, List.mem_cons]
  norm_num [calculateLoadScore, loadA, loadB, loadC]

/-- **C9 (amended).** When every candidate's load score exceeds the
threshold, Smart-Load-Balanced returns a permutation of all candidates,
but not in general sorted ascending by each account's own load score: the
comparator reads the load scores of the original positions, so the order is
preserved (and thus ascending) when the input is already ascending by load
score, while other inputs may come out unsorted (see the counterexample). -/
theorem C9_amended_all_overloaded (base : List Account → List Account) (thr : Rat)
    (m : List (Nat × PerformanceData)) (l : List Account)
    (hover : ∀ a ∈ l, calculateLoadScore a > thr) :
    (smartSelect base thr m l).Perm l ∧
    (List.Chain' (· ≤ ·) (l.map calculateLoadScore) → smartSelect base thr m l = l) := by
  refine ⟨smart_all_overloaded_perm base thr m l hover, ?_⟩
  intro hchain
  unfold smartSelect
  have hav : l.filter (fun a => !smartOverloaded thr a) = [] := by
    apply List.filter_eq_nil_iff.mpr
    intro a ha
    simp [smartOverloaded, hover a ha]
  simp only [hav, List.isEmpty_nil, if_true]
  apply posSortGo_id
  intro j hj
  have hlen : (l.map calculateLoadScore).length = l.length := List.length_map l _
  have hj1 : j + 1 < (l.map calculateLoadScore).length := by omega
  have hj0 : j < (l.map calculateLoadScore).length := by omega
  have hle := List.chain'_iff_get.mp hchain j (by omega)
  rw [List.getD_eq_getElem (l.map calculateLoadScore) 0 hj1,
    List.getD_eq_getElem (l.map calculateLoadScore) 0 hj0]
  simp only [decide_eq_false_iff_not, not_lt]
  simpa [List.get_eq_getElem] using hle

theorem C9_amended_all_overloaded_witness :
    (∀ a ∈ [loadC, loadA, loadB], calculateLoadScore a > (5 : Rat)) ∧
    List.Chain' (· ≤ ·) ([loadC, loadA, loadB].map calculateLoadScore) ∧
    ((smartSelect prioritySelect 5 [] [loadC, loadA, loadB]).Perm [loadC, loadA, loadB] ∧
      (List.Chain' (· ≤ ·) ([loadC, loadA, loadB].map calculateLoadScore) →
        smartSelect prioritySelect 5 [] [loadC, loadA, loadB] = [loadC, loadA, loadB])) := by
  have hover : ∀ a ∈ [loadC, loadA, loadB], calculateLoadScore a > (5 : Rat) := by
    intro a ha
    fin_cases ha <;> norm_num [calculateLoadScore, loadA, loadB, loadC]
  have hchain : List.Chain' (· ≤ ·) ([loadC, loadA, loadB].map calculateLoadScore) := by
    norm_num [List.chain'_cons, calculateLoadScore, loadA, loadB, loadC]
  exact ⟨hover, hchain, C9_amended_all_overloaded prioritySelect 5 [] _ hover⟩

end Relay
